import Mathlib

/-
Verification of the thanos-operator reconciliation core against its
natural-language specification.

The development shallowly embeds the two controllers found in
`internal/controller/thanosreceive_controller.go` and
`internal/controller/thanosquery_controller.go`:

* the ThanosReceive hashring-configuration pipeline
  (`buildHashringConfig`, `syncResources`, `Reconcile`,
  `handleDeletionTimestamp`), and
* the ThanosQuery store-endpoint observer and apply loop
  (`getStoreAPIServiceEndpoints`, `syncResources`, `Reconcile`).

Kubernetes client calls (Get/List/CreateOrUpdate), metric counters and
event recording are represented by explicit inputs and explicit state
fields, so every controller path becomes a pure, executable function.

Functions of this repository that live outside the provided source
slice (`receive.BuildHashrings`, `receive.IngesterNameFromParent`,
`receive.BuildIngesters`, the query flag rendering in
`query.BuildQuerier`) are modelled from the specification; each such
definition carries a doc comment starting with "Modelled from the
spec:".
-/

namespace ThanosOperator

/-! ## Generic kubernetes object model -/

/-- A target platform object in a DesiredObjectSet, reduced to the
identity and payload the claims need: kind, name and (for the hashring
ConfigMap) the serialized configuration content. -/
structure K8sObj where
  kind : String
  name : String
  payload : Option String
deriving DecidableEq

/-- Outcome of processing one object in the apply loop of
`syncResources`: setting the controller owner reference can fail
(the object is counted and skipped before CreateOrUpdate), the
CreateOrUpdate call can fail, or the apply succeeds. -/
inductive ApplyOutcome
  | setRefFailed
  | applyFailed
  | applied
deriving DecidableEq

/-- Result of a kubernetes Get call for the reconcile subject. -/
inductive GetResult (α : Type)
  | found (a : α)
  | notFound
  | getError
deriving DecidableEq

/-! ## Lexicographic string order

`String.decidableLT` in this toolchain is iterator-based and does not
reduce in the kernel, so the development carries its own executable
lexicographic comparator over the character data of a string.  It is
the byte-wise lexicographic order used for the "sorted
lexicographically" statements. -/

/-- Lexicographic less-or-equal on character lists, by character code. -/
def charListLe : List Char → List Char → Bool
  | [], _ => true
  | _ :: _, [] => false
  | a :: as, b :: bs =>
    if a.toNat < b.toNat then true
    else if b.toNat < a.toNat then false
    else charListLe as bs

/-- Lexicographic less-or-equal on strings. -/
def strLeb (a b : String) : Bool :=
  charListLe a.data b.data

theorem charListLe_total : ∀ x y : List Char, charListLe x y = true ∨ charListLe y x = true
  | [], _ => Or.inl rfl
  | _ :: _, [] => Or.inr rfl
  | a :: as, b :: bs => by
    simp only [charListLe]
    split_ifs with h1 h2 h3 <;>
      first
        | exact Or.inl rfl
        | exact Or.inr rfl
        | omega
        | exact charListLe_total as bs

theorem charListLe_trans : ∀ x y z : List Char,
    charListLe x y = true → charListLe y z = true → charListLe x z = true
  | [], _, _ => by intros; rfl
  | a :: as, [], _ => by simp [charListLe]
  | a :: as, b :: bs, [] => by simp [charListLe]
  | a :: as, b :: bs, c :: cs => by
    intro hxy hyz
    simp only [charListLe] at hxy hyz ⊢
    split_ifs at hxy hyz ⊢ with h1 h2 h3 h4 h5 h6 <;>
      first
        | rfl
        | (exfalso; exact Bool.false_ne_true hxy)
        | (exfalso; exact Bool.false_ne_true hyz)
        | (exfalso; omega)
        | exact charListLe_trans as bs cs hxy hyz

/-- The sort relation on strings used by the synthesizer model. -/
def strLe (a b : String) : Prop := strLeb a b = true

instance : DecidableRel strLe := fun a b =>
  inferInstanceAs (Decidable (strLeb a b = true))

instance : IsTotal String strLe := ⟨fun a b => charListLe_total a.data b.data⟩

instance : IsTrans String strLe :=
  ⟨fun a b c => charListLe_trans a.data b.data c.data⟩

/-- Sort a list of strings lexicographically. -/
def sortStrings (l : List String) : List String :=
  List.insertionSort strLe l

/-! ## ThanosReceive data model -/

/-- Readiness conditions of one endpoint in a discovery-v1
EndpointSlice (`discoveryv1.EndpointConditions`): each flag is a
tri-state optional boolean. -/
structure EndpointConditions where
  ready : Option Bool
  serving : Option Bool
  terminating : Option Bool
deriving DecidableEq

/-- One endpoint of a discovery-v1 EndpointSlice: addresses, the
optional pod hostname and the readiness conditions. -/
structure SliceEndpoint where
  addresses : List String
  hostname : Option String
  conditions : EndpointConditions
deriving DecidableEq

/-- A discovery-v1 EndpointSlice reduced to its endpoint list. -/
structure EndpointSlice where
  endpoints : List SliceEndpoint
deriving DecidableEq

/-- One shard declaration from `spec.ingester.hashrings`
(`IngestorHashringSpec`): name, tenant list, tenant matching mode and
replica count. -/
structure IngestorHashringSpec where
  name : String
  tenants : List String
  tenantMatcherType : String
  replicas : Nat
deriving DecidableEq

/-- Per-shard bookkeeping assembled by `buildHashringConfig`
(`receive.HashringMeta`): desired replicas, the original shard name,
tenancy, the endpoint slices observed live for the shard, and a
priority derived from declaration order. -/
structure HashringMeta where
  desiredReplicasReplicas : Nat
  originalName : String
  tenants : List String
  tenantMatcherType : String
  associatedEndpointSlices : List EndpointSlice
  priority : Nat
deriving DecidableEq

/-- One row of the routing-table artifact (`HashringConfig` entry):
shard name, tenants, matcher type and the resolved endpoint address
list. -/
structure HashringConfigEntry where
  hashring : String
  tenants : List String
  tenantMatcherType : String
  endpoints : List String
deriving DecidableEq

/-- Modelled from the spec: `receive.IngesterNameFromParent` is not in
the provided source slice; per the external-interface section the
shard workload name is `<subject-name>-<shard-name>`. -/
def IngesterNameFromParent (parent child : String) : String :=
  parent ++ "-" ++ child

/-- An endpoint is kept iff it is flagged ready and serving and not
terminating. -/
def endpointReady (e : SliceEndpoint) : Bool :=
  e.conditions.ready == some true &&
    e.conditions.serving == some true &&
      !(e.conditions.terminating == some true)

/-- Modelled from the spec: a kept address is rendered as the fully
qualified form `<hostname>.<identity>.<namespace>.svc.cluster.local:19291`. -/
def renderAddress (hostname identity nsName : String) : String :=
  hostname ++ "." ++ identity ++ "." ++ nsName ++ ".svc.cluster.local:19291"

/-- Modelled from the spec: the ready endpoint addresses of a shard,
obtained by filtering every endpoint of its endpoint slices to the
ready-and-serving-and-not-terminating ones and rendering each kept
hostname with the shard identity's DNS suffix. -/
def readyAddresses (identity nsName : String) (slices : List EndpointSlice) : List String :=
  slices.flatMap fun sl =>
    sl.endpoints.filterMap fun e =>
      if endpointReady e then
        e.hostname.map fun h => renderAddress h identity nsName
      else none

/-- Order on routing-table entries: by shard name. -/
def entryLe (a b : HashringConfigEntry) : Prop :=
  strLeb a.hashring b.hashring = true

instance : DecidableRel entryLe := fun a b =>
  inferInstanceAs (Decidable (strLeb a.hashring b.hashring = true))

instance : IsTotal HashringConfigEntry entryLe :=
  ⟨fun a b => charListLe_total a.hashring.data b.hashring.data⟩

instance : IsTrans HashringConfigEntry entryLe :=
  ⟨fun a b c => charListLe_trans a.hashring.data b.hashring.data c.hashring.data⟩

/-- Modelled from the spec: the entry `receive.BuildHashrings` emits
for one shard.  The freshly observed ready addresses are sorted
lexicographically; when the shard yields zero ready addresses the
previously persisted endpoint list for the same shard name is
preserved from the existing configuration artifact (empty when no
previous entry exists). -/
def buildHashringEntry (existing : List HashringConfigEntry) (nsName identity : String)
    (meta : HashringMeta) : HashringConfigEntry :=
  let fresh := sortStrings (readyAddresses identity nsName meta.associatedEndpointSlices)
  let eps :=
    if fresh.isEmpty then
      match existing.find? (fun e => e.hashring == meta.originalName) with
      | some prev => prev.endpoints
      | none => []
    else fresh
  { hashring := meta.originalName
    tenants := meta.tenants
    tenantMatcherType := meta.tenantMatcherType
    endpoints := eps }

/-- Modelled from the spec: `receive.BuildHashrings` is not in the
provided source slice.  Given the previously persisted entries and the
per-shard settings it emits the full entry sequence sorted by shard
name, together with a flag recording whether the `ErrHashringsEmpty`
sentinel was signalled (shard list empty). -/
def BuildHashrings (existing : List HashringConfigEntry) (nsName : String)
    (settings : List (String × HashringMeta)) : List HashringConfigEntry × Bool :=
  if settings.isEmpty then ([], true)
  else
    (List.insertionSort entryLe
      (settings.map fun s => buildHashringEntry existing nsName s.1 s.2), false)

/-! ## JSON serialization of the routing-table artifact -/

/-- Render a JSON string literal (escaping is not modelled; the names
and addresses involved contain no characters needing escapes). -/
def jsonStr (s : String) : String := "\"" ++ s ++ "\""

/-- Render one endpoint object `\x7b"address": ..., "az": ""\x7d`. -/
def endpointJson (addr : String) : String :=
  "\x7b\"address\":" ++ jsonStr addr ++ ",\"az\":\"\"\x7d"

/-- Render one routing-table row as a JSON object. -/
def entryJson (e : HashringConfigEntry) : String :=
  "\x7b\"hashring\":" ++ jsonStr e.hashring ++
    ",\"tenants\":[" ++ String.intercalate "," (e.tenants.map jsonStr) ++
    "],\"tenant_matcher_type\":" ++ jsonStr e.tenantMatcherType ++
    ",\"endpoints\":[" ++ String.intercalate "," (e.endpoints.map endpointJson) ++
    "]\x7d"

/-- Modelled from the spec: the routing table serializes as a single
JSON sequence; the all-shards-empty state serializes to the literal
`[]`. -/
def serializeHashringConfig (entries : List HashringConfigEntry) : String :=
  "[" ++ String.intercalate "," (entries.map entryJson) ++ "]"

/-- Modelled from the spec: `receive.EmptyHashringConfig`, the "empty
hashring config" sentinel content. -/
def EmptyHashringConfig : String := "[]"

/-! ## buildHashringConfig (thanosreceive_controller.go) -/

/-- Result of the Get for the existing hashring ConfigMap in
`buildHashringConfig`: found with previously persisted entries,
not found (treated as an empty existing artifact), or a client error
(escalated to a hard failure). -/
inductive CmRead
  | found (entries : List HashringConfigEntry)
  | notFound
  | getError
deriving DecidableEq

/-- Go-map insertion on the association list holding
`opts.HashringSettings`: overwrite the value when the key exists,
append otherwise. -/
def upsertSetting (m : List (String × HashringMeta)) (k : String) (v : HashringMeta) :
    List (String × HashringMeta) :=
  if m.any (fun p => p.1 == k) then
    m.map fun p => if p.1 == k then (k, v) else p
  else m ++ [(k, v)]

/-- The settings-collection loop of `buildHashringConfig`: for the
i-th declared shard, list the endpoint slices labelled with the
shard's derived identity `IngesterNameFromParent subject name`
(a `none` listing result is a client error aborting the build), and
store its `HashringMeta` under that identity with priority
`total - i`.  The endpoint listing is an explicit input
`slices : String → Option (List EndpointSlice)`. -/
def mkSettings (subject : String) (total : Nat)
    (slices : String → Option (List EndpointSlice)) :
    Nat → List IngestorHashringSpec → List (String × HashringMeta) →
    Option (List (String × HashringMeta))
  | _, [], acc => some acc
  | i, h :: rest, acc =>
    let labelValue := IngesterNameFromParent subject h.name
    match slices labelValue with
    | none => none
    | some eps =>
      mkSettings subject total slices (i + 1) rest
        (upsertSetting acc labelValue
          { desiredReplicasReplicas := h.replicas
            originalName := h.name
            tenants := h.tenants
            tenantMatcherType := h.tenantMatcherType
            associatedEndpointSlices := eps
            priority := total - i })

/-- Result of `buildHashringConfig`: the built entry list, either
plainly or together with the `ErrHashringsEmpty` sentinel (the Go
function returns the ConfigMap object alongside the sentinel error),
or a hard failure. -/
inductive BuildConfigResult
  | ok (entries : List HashringConfigEntry)
  | emptySentinel (entries : List HashringConfigEntry)
  | err
deriving DecidableEq

/-- The entry list carried by a non-failing build result. -/
def BuildConfigResult.entryList : BuildConfigResult → Option (List HashringConfigEntry)
  | .ok es => some es
  | .emptySentinel es => some es
  | .err => none

/-- `buildHashringConfig` of the ThanosReceive controller: read the
existing ConfigMap (a non-not-found Get error is a hard failure, a
not-found is an empty existing artifact), collect the per-shard
settings, and hand them to `BuildHashrings`. -/
def buildHashringConfig (cm : CmRead) (subject nsName : String)
    (hashrings : List IngestorHashringSpec)
    (slices : String → Option (List EndpointSlice)) : BuildConfigResult :=
  match cm with
  | .getError => .err
  | _ =>
    let existing := match cm with | .found es => es | _ => []
    match mkSettings subject hashrings.length slices 0 hashrings [] with
    | none => .err
    | some settings =>
      let r := BuildHashrings existing nsName settings
      if r.2 then .emptySentinel r.1 else .ok r.1

/-- The hashring ConfigMap object published by the controller: named
after the subject, carrying the serialized routing table. -/
def configArtifact (subject : String) (entries : List HashringConfigEntry) : K8sObj :=
  { kind := "ConfigMap"
    name := subject
    payload := some (serializeHashringConfig entries) }

/-- Modelled from the spec: `receive.BuildIngesters` is not in the
provided source slice; per the external-interface section each shard
contributes a ServiceAccount, a Service and a StatefulSet named
`<subject-name>-<shard-name>`. -/
def buildIngesterObjs (subject : String) (hashrings : List IngestorHashringSpec) :
    List K8sObj :=
  hashrings.flatMap fun h =>
    let n := IngesterNameFromParent subject h.name
    [ { kind := "ServiceAccount", name := n, payload := none },
      { kind := "Service", name := n, payload := none },
      { kind := "StatefulSet", name := n, payload := none } ]

/-! ## The apply loop shared by both controllers -/

/-- Aggregate result of one `syncResources` pass: the objects for
which CreateOrUpdate was attempted, the per-object failure count, and
whether the pass is reported as failed. -/
structure SyncResult where
  attempted : List K8sObj
  errCount : Nat
  isErr : Bool
deriving DecidableEq

/-- The per-object loop of `syncResources` (identical in the
ThanosQuery and ThanosReceive controllers): a failed
SetControllerReference counts an error and skips the object's
CreateOrUpdate; a failed CreateOrUpdate counts an error; either way
the loop continues with the remaining objects. -/
def applyAll (outcome : K8sObj → ApplyOutcome) : List K8sObj → List K8sObj × Nat
  | [] => ([], 0)
  | o :: rest =>
    let r := applyAll outcome rest
    match outcome o with
    | .setRefFailed => (r.1, r.2 + 1)
    | .applyFailed => (o :: r.1, r.2 + 1)
    | .applied => (o :: r.1, r.2)

/-- Run the apply loop over a desired object set; the pass is reported
as failed iff at least one object failed. -/
def runApplyLoop (outcome : K8sObj → ApplyOutcome) (objs : List K8sObj) : SyncResult :=
  let r := applyAll outcome objs
  { attempted := r.1, errCount := r.2, isErr := decide (0 < r.2) }

/-- `syncResources` of the ThanosReceive controller: build the
ingester objects, build the hashring configuration (a hard build
failure aborts the pass before anything is applied; the
`ErrHashringsEmpty` sentinel does not prevent publishing the
ConfigMap), then apply every object best-effort. -/
def syncResources (cm : CmRead) (subject nsName : String)
    (hashrings : List IngestorHashringSpec)
    (slices : String → Option (List EndpointSlice))
    (outcome : K8sObj → ApplyOutcome) : SyncResult :=
  let ingesters := buildIngesterObjs subject hashrings
  match buildHashringConfig cm subject nsName hashrings slices with
  | .err => { attempted := [], errCount := 0, isErr := true }
  | .emptySentinel entries =>
    runApplyLoop outcome (ingesters ++ [configArtifact subject entries])
  | .ok entries =>
    runApplyLoop outcome (ingesters ++ [configArtifact subject entries])

/-! ## ThanosReceive Reconcile -/

/-- The metric counters of the ThanosReceive reconciler that the
claims mention. -/
structure Metrics where
  reconciliationsTotal : Nat
  reconciliationsFailedTotal : Nat
  clientErrorsTotal : Nat
deriving DecidableEq

/-- The ThanosReceive subject reduced to the fields the reconcile
paths read: identity, deletion marker, finalizers and the declared
shard list. -/
structure ThanosReceive where
  name : String
  nsName : String
  deletionTimestamp : Option Nat
  finalizers : List String
  hashrings : List IngestorHashringSpec
deriving DecidableEq

/-- The receive finalizer marker. -/
def receiveFinalizer : String := "monitoring.thanos.io/receive-finalizer"

/-- The human-readable deletion notice recorded as an event. -/
def deletionNotice (r : ThanosReceive) : String :=
  "Custom Resource " ++ r.name ++ " is being deleted from the namespace " ++ r.nsName

/-- `handleDeletionTimestamp`: when the finalizer marker is present,
record the deletion-notice event; either way nothing else happens and
the pass ends successfully. -/
def handleDeletionTimestamp (r : ThanosReceive) (events : List String) : List String :=
  if r.finalizers.contains receiveFinalizer then events ++ [deletionNotice r]
  else events

/-- Observable effects of one ThanosReceive reconcile pass: final
counter values, recorded events, objects for which CreateOrUpdate was
attempted, and whether the pass returned an error. -/
structure ReconcileEffects where
  metrics : Metrics
  events : List String
  attempted : List K8sObj
  isErr : Bool
deriving DecidableEq

/-- `Reconcile` of the ThanosReceive controller.  The total counter is
always incremented; a Get error (including not-found) increments the
client-error counter; a not-found subject ends the pass successfully;
a subject with a deletion timestamp takes the finalizer path; an
active subject runs `syncResources`, whose failure marks the pass
failed.  (The configured-hashrings gauge is not modelled; no claim
mentions it.) -/
def receiveReconcile (get : GetResult ThanosReceive) (cm : CmRead)
    (slices : String → Option (List EndpointSlice))
    (outcome : K8sObj → ApplyOutcome) (m : Metrics) (events : List String) :
    ReconcileEffects :=
  let m := { m with reconciliationsTotal := m.reconciliationsTotal + 1 }
  match get with
  | .getError =>
    { metrics := { m with
        clientErrorsTotal := m.clientErrorsTotal + 1
        reconciliationsFailedTotal := m.reconciliationsFailedTotal + 1 }
      events := events, attempted := [], isErr := true }
  | .notFound =>
    { metrics := { m with clientErrorsTotal := m.clientErrorsTotal + 1 }
      events := events, attempted := [], isErr := false }
  | .found r =>
    if r.deletionTimestamp.isSome then
      { metrics := m, events := handleDeletionTimestamp r events
        attempted := [], isErr := false }
    else
      let s := syncResources cm r.name r.nsName r.hashrings slices outcome
      if s.isErr then
        { metrics := { m with
            reconciliationsFailedTotal := m.reconciliationsFailedTotal + 1
            clientErrorsTotal := m.clientErrorsTotal + s.errCount }
          events := events, attempted := s.attempted, isErr := true }
      else
        { metrics := m, events := events, attempted := s.attempted, isErr := false }

/-! ## ThanosQuery endpoint observer (thanosquery_controller.go) -/

/-- A service port: name and port number. -/
structure ServicePort where
  name : String
  port : Int
deriving DecidableEq

/-- A kubernetes Service reduced to what the observer reads: identity,
labels and ports. -/
structure K8sService where
  name : String
  nsName : String
  labels : List (String × String)
  ports : List ServicePort
deriving DecidableEq

/-- `metav1.HasLabel`: key presence in the label map. -/
def hasLabel (labels : List (String × String)) (k : String) : Bool :=
  labels.any fun p => p.1 == k

/-- Modelled from the spec: the four strictness label keys live in the
`manifests/query` package outside the provided source slice; only
their identity and distinctness matter here. -/
def StrictLabel : String := "operator.thanos.io/endpoint-strict"

/-- Modelled from the spec: the group-strict strictness label key. -/
def GroupStrictLabel : String := "operator.thanos.io/endpoint-group-strict"

/-- Modelled from the spec: the group strictness label key. -/
def GroupLabel : String := "operator.thanos.io/endpoint-group"

/-- Strictness class of an observed store service
(`manifestquery.Endpoint.Type`). -/
inductive EndpointType
  | regular
  | strict
  | groupStrict
  | group
deriving DecidableEq

/-- A classified store endpoint (`manifestquery.Endpoint`): service
name, namespace, strictness class and grpc port. -/
structure Endpoint where
  serviceName : String
  nsName : String
  etype : EndpointType
  port : Int
deriving DecidableEq

/-- The strictness classification of `getStoreAPIServiceEndpoints`:
label presence checked in the fixed order strict, then group-strict,
then group, defaulting to regular. -/
def classifyService (svc : K8sService) : EndpointType :=
  if hasLabel svc.labels StrictLabel then .strict
  else if hasLabel svc.labels GroupStrictLabel then .groupStrict
  else if hasLabel svc.labels GroupLabel then .group
  else .regular

/-- The port-extraction loop of `getStoreAPIServiceEndpoints`: find
the port named `grpc` and record it on the endpoint (the zero-valued
endpoint otherwise). -/
def grpcPortUpdate (svc : K8sService) (e : Endpoint) : Endpoint :=
  match svc.ports.find? (fun p => p.name == "grpc") with
  | some p => { e with port := p.port }
  | none => e

/-- `getStoreAPIServiceEndpoints`: a failed List call, like an empty
listing, yields the empty endpoint list; otherwise each service is
classified and mapped to an endpoint.  As in the source, the slot is
first written by the grpc-port loop and then reassigned with a struct
literal carrying only service name, namespace and type, whose omitted
port field is the Go zero value 0 — the extracted port is dropped. -/
def getStoreAPIServiceEndpoints (listResult : Option (List K8sService)) : List Endpoint :=
  match listResult with
  | none => []
  | some services =>
    if services.isEmpty then []
    else
      services.map fun svc =>
        let etype := classifyService svc
        let e : Endpoint := { serviceName := "", nsName := "", etype := .regular, port := 0 }
        let e := grpcPortUpdate svc e
        { serviceName := svc.name, nsName := svc.nsName, etype := etype, port := 0 }

/-! ## Federation topology builder (query flags) -/

/-- Modelled from the spec: the discovery flag head selected by the
strictness class. -/
def endpointFlagHead : EndpointType → String
  | .regular => "--endpoint="
  | .strict => "--endpoint-strict="
  | .group => "--endpoint-group="
  | .groupStrict => "--endpoint-group-strict="

/-- Modelled from the spec: the full discovery argument for one
classified endpoint,
`--endpoint[-group][-strict]=dnssrv+_grpc._tcp.<service>.<namespace>.svc.cluster.local`. -/
def endpointArg (e : Endpoint) : String :=
  endpointFlagHead e.etype ++
    "dnssrv+_grpc._tcp." ++ e.serviceName ++ "." ++ e.nsName ++ ".svc.cluster.local"

/-- Modelled from the spec: `query.BuildQuerier` appends one discovery
argument per classified endpoint, in observation order. -/
def querierEndpointArgs (endpoints : List Endpoint) : List String :=
  endpoints.map endpointArg

/-- The ThanosQuery subject reduced to its identity. -/
structure ThanosQuery where
  name : String
  nsName : String
deriving DecidableEq

/-- Modelled from the spec: the ThanosQuery desired object set — a
ServiceAccount, a Service and a Deployment named after the subject,
the Deployment carrying the discovery arguments computed from the
observed store services. -/
def buildQuerierObjs (q : ThanosQuery) (services : Option (List K8sService)) :
    List K8sObj :=
  [ { kind := "ServiceAccount", name := q.name, payload := none },
    { kind := "Service", name := q.name, payload := none },
    { kind := "Deployment", name := q.name
      payload := some (String.intercalate " "
        (querierEndpointArgs (getStoreAPIServiceEndpoints services))) } ]

/-- `syncResources` of the ThanosQuery controller: build the querier
object set and apply it with the shared best-effort loop. -/
def querySyncResources (q : ThanosQuery) (services : Option (List K8sService))
    (outcome : K8sObj → ApplyOutcome) : SyncResult :=
  runApplyLoop outcome (buildQuerierObjs q services)

/-- Observable effects of one ThanosQuery reconcile pass (this
controller keeps no metric counters). -/
structure QueryEffects where
  attempted : List K8sObj
  isErr : Bool
deriving DecidableEq

/-- `Reconcile` of the ThanosQuery controller: a not-found subject
ends the pass successfully with nothing applied; a Get error fails the
pass; otherwise `syncResources` runs. -/
def queryReconcile (get : GetResult ThanosQuery)
    (services : Option (List K8sService))
    (outcome : K8sObj → ApplyOutcome) : QueryEffects :=
  match get with
  | .getError => { attempted := [], isErr := true }
  | .notFound => { attempted := [], isErr := false }
  | .found q =>
    let s := querySyncResources q services outcome
    { attempted := s.attempted, isErr := s.isErr }

/-! ## Concrete fixtures from the controller tests -/

/-- A ready, serving, non-terminating endpoint with the given address
and hostname, as in the controller test's relevant EndpointSlice. -/
def readyEndpoint (addr hostname : String) : SliceEndpoint :=
  { addresses := [addr]
    hostname := some hostname
    conditions := { ready := some true, serving := some true, terminating := some false } }

/-- The relevant EndpointSlice of the ThanosReceive controller test:
three ready endpoints with hostnames some-hostname, some-hostname-b
and some-hostname-c. -/
def testEndpointSlice : EndpointSlice :=
  { endpoints :=
      [ readyEndpoint "8.8.8.8" "some-hostname",
        readyEndpoint "1.1.1.1" "some-hostname-b",
        readyEndpoint "2.2.2.2" "some-hostname-c" ] }

/-- The `test-hashring` shard declared in the ThanosReceive controller
test. -/
def testHashringSpec : IngestorHashringSpec :=
  { name := "test-hashring"
    tenants := ["test-tenant"]
    tenantMatcherType := "exact"
    replicas := 3 }

/-- The endpoint-slice listing of the test cluster: the derived
identity `test-resource-test-hashring` owns the relevant slice. -/
def testSlices : String → Option (List EndpointSlice) := fun k =>
  if k == "test-resource-test-hashring" then some [testEndpointSlice] else some []

/-- The entry the test expects in the ConfigMap. -/
def expectedTestEntry : HashringConfigEntry :=
  { hashring := "test-hashring"
    tenants := ["test-tenant"]
    tenantMatcherType := "exact"
    endpoints :=
      [ "some-hostname-b.test-resource-test-hashring.treceive.svc.cluster.local:19291",
        "some-hostname-c.test-resource-test-hashring.treceive.svc.cluster.local:19291",
        "some-hostname.test-resource-test-hashring.treceive.svc.cluster.local:19291" ] }

/-- The strict-labelled store service of the query claims: `my-store`
in namespace `ns` with a `grpc` port 10901 and the strict label. -/
def myStoreStrict : K8sService :=
  { name := "my-store"
    nsName := "ns"
    labels := [(StrictLabel, "true")]
    ports := [{ name := "grpc", port := 10901 }] }

/-- The same service without any strictness label. -/
def myStorePlain : K8sService :=
  { name := "my-store"
    nsName := "ns"
    labels := []
    ports := [{ name := "grpc", port := 10901 }] }

/-- A service without a `grpc`-named port. -/
def noGrpcService : K8sService :=
  { name := "no-grpc"
    nsName := "ns"
    labels := []
    ports := [{ name := "http", port := 8080 }] }

/-- A previously persisted non-empty entry for `test-hashring`, used
to exercise the preservation path. -/
def prevTestEntry : HashringConfigEntry :=
  { hashring := "test-hashring"
    tenants := ["test-tenant"]
    tenantMatcherType := "exact"
    endpoints := ["old-host.test-resource-test-hashring.treceive.svc.cluster.local:19291"] }

/-- An endpoint-slice listing with zero ready endpoints everywhere. -/
def emptySlices : String → Option (List EndpointSlice) := fun _ => some []

/-- All counters at zero. -/
def zeroMetrics : Metrics :=
  { reconciliationsTotal := 0, reconciliationsFailedTotal := 0, clientErrorsTotal := 0 }

/-- A subject marked for deletion carrying the receive finalizer. -/
def deletingReceive : ThanosReceive :=
  { name := "test-resource", nsName := "treceive", deletionTimestamp := some 1
    finalizers := [receiveFinalizer], hashrings := [] }

/-! ## Proof-support definitions -/

/-- The previously persisted entries seen by `buildHashringConfig`:
the ConfigMap content when found, empty otherwise. -/
def existingOf : CmRead → List HashringConfigEntry
  | .found es => es
  | _ => []

/-- The setting `buildHashringConfig` records for the i-th declared
shard when its endpoint listing succeeds. -/
def settingOf (subject : String) (total i : Nat)
    (slices : String → Option (List EndpointSlice)) (h : IngestorHashringSpec) :
    String × HashringMeta :=
  (IngesterNameFromParent subject h.name,
   { desiredReplicasReplicas := h.replicas
     originalName := h.name
     tenants := h.tenants
     tenantMatcherType := h.tenantMatcherType
     associatedEndpointSlices := (slices (IngesterNameFromParent subject h.name)).getD []
     priority := total - i })

/-- The settings list `buildHashringConfig` collects for a shard list
with pairwise-distinct names, starting at index i. -/
def settingsOf (subject : String) (total : Nat)
    (slices : String → Option (List EndpointSlice)) :
    Nat → List IngestorHashringSpec → List (String × HashringMeta)
  | _, [] => []
  | i, h :: rest =>
    settingOf subject total i slices h :: settingsOf subject total slices (i + 1) rest

/-! ## Helper lemmas -/

theorem IngesterNameFromParent_inj {p a b : String}
    (h : IngesterNameFromParent p a = IngesterNameFromParent p b) : a = b := by
  have hd := congrArg String.data h
  simp only [IngesterNameFromParent, String.data_append] at hd
  exact String.ext (List.append_cancel_left hd)

theorem mkSettings_eq (subject : String) (total : Nat)
    (slices : String → Option (List EndpointSlice)) :
    ∀ (hs : List IngestorHashringSpec) (i : Nat) (acc : List (String × HashringMeta)),
    (∀ h ∈ hs, (slices (IngesterNameFromParent subject h.name)).isSome) →
    (∀ h ∈ hs, ∀ p ∈ acc, p.1 ≠ IngesterNameFromParent subject h.name) →
    (hs.map (fun h => h.name)).Nodup →
    mkSettings subject total slices i hs acc =
      some (acc ++ settingsOf subject total slices i hs)
  | [], i, acc => by
    intro _ _ _
    simp [mkSettings, settingsOf]
  | h :: rest, i, acc => by
    intro hsome hfresh hnd
    have hs1 : (slices (IngesterNameFromParent subject h.name)).isSome :=
      hsome h (List.mem_cons_self h rest)
    obtain ⟨eps, heps⟩ := Option.isSome_iff_exists.mp hs1
    have hany : acc.any (fun p => p.1 == IngesterNameFromParent subject h.name) = false := by
      rw [List.any_eq_false]
      intro p hp
      simp only [beq_iff_eq]
      exact hfresh h (List.mem_cons_self h rest) p hp
    have hupsert :
        upsertSetting acc (IngesterNameFromParent subject h.name)
          { desiredReplicasReplicas := h.replicas
            originalName := h.name
            tenants := h.tenants
            tenantMatcherType := h.tenantMatcherType
            associatedEndpointSlices := eps
            priority := total - i } =
          acc ++ [settingOf subject total i slices h] := by
      simp only [upsertSetting, hany, if_neg Bool.false_ne_true, settingOf, heps]
      rfl
    have hnd' : (rest.map (fun h => h.name)).Nodup := by
      simpa using hnd.of_cons
    have hname : ∀ h' ∈ rest, h.name ≠ h'.name := by
      intro h' hm heq
      have hcons : (∀ x ∈ rest, ¬x.name = h.name) ∧
          (rest.map (fun h => h.name)).Nodup := by simpa using hnd
      exact hcons.1 h' hm heq.symm
    have ih := mkSettings_eq subject total slices rest (i + 1)
      (acc ++ [settingOf subject total i slices h])
      (fun h' hm => hsome h' (List.mem_cons_of_mem h hm))
      (by
        intro h' hm p hp
        rcases List.mem_append.mp hp with hpa | hpb
        · exact hfresh h' (List.mem_cons_of_mem h hm) p hpa
        · have : p = settingOf subject total i slices h := by simpa using hpb
          subst this
          simp only [settingOf]
          intro heq
          exact hname h' hm (IngesterNameFromParent_inj heq))
      hnd'
    simp only [mkSettings, heps, hupsert, ih, settingsOf]
    simp [List.append_assoc]

theorem settingsOf_countP (subject : String) (total : Nat)
    (slices : String → Option (List EndpointSlice)) (nm : String) :
    ∀ (hs : List IngestorHashringSpec) (i : Nat),
    (settingsOf subject total slices i hs).countP (fun s => s.2.originalName == nm) =
      (hs.map (fun h => h.name)).countP (fun x => x == nm)
  | [], _ => rfl
  | h :: rest, i => by
    simp [settingsOf, List.countP_cons,
      settingsOf_countP subject total slices nm rest (i + 1), settingOf]

theorem settingsOf_mem (subject : String) (total : Nat)
    (slices : String → Option (List EndpointSlice)) (h : IngestorHashringSpec) :
    ∀ (hs : List IngestorHashringSpec) (i : Nat), h ∈ hs →
    ∃ j, settingOf subject total j slices h ∈ settingsOf subject total slices i hs
  | [], _, hm => absurd hm (List.not_mem_nil h)
  | h' :: rest, i, hm => by
    rcases List.mem_cons.mp hm with heq | hmem
    · exact ⟨i, heq ▸ List.mem_cons_self _ _⟩
    · obtain ⟨j, hj⟩ := settingsOf_mem subject total slices h rest (i + 1) hmem
      exact ⟨j, List.mem_cons_of_mem _ hj⟩

theorem buildHashringConfig_entryList (cm : CmRead) (subject nsName : String)
    (hs : List IngestorHashringSpec) (slices : String → Option (List EndpointSlice))
    (hcm : cm ≠ CmRead.getError)
    (hsome : ∀ h ∈ hs, (slices (IngesterNameFromParent subject h.name)).isSome)
    (hnd : (hs.map (fun h => h.name)).Nodup) :
    (buildHashringConfig cm subject nsName hs slices).entryList =
      some (List.insertionSort entryLe
        ((settingsOf subject hs.length slices 0 hs).map
          (fun s => buildHashringEntry (existingOf cm) nsName s.1 s.2))) := by
  have hmk := mkSettings_eq subject hs.length slices hs 0 []
    hsome (by intro _ _ p hp; exact absurd hp (List.not_mem_nil p)) hnd
  cases cm with
  | getError => exact absurd rfl hcm
  | notFound =>
    simp only [buildHashringConfig, hmk, List.nil_append, BuildHashrings, existingOf]
    cases hs with
    | nil => simp [settingsOf, BuildConfigResult.entryList]
    | cons h rest =>
      simp [settingsOf, BuildConfigResult.entryList]
  | found es =>
    simp only [buildHashringConfig, hmk, List.nil_append, BuildHashrings, existingOf]
    cases hs with
    | nil => simp [settingsOf, BuildConfigResult.entryList]
    | cons h rest =>
      simp [settingsOf, BuildConfigResult.entryList]

theorem applyAll_spec (outcome : K8sObj → ApplyOutcome) : ∀ objs : List K8sObj,
    applyAll outcome objs =
      (objs.filter (fun o => !(outcome o == ApplyOutcome.setRefFailed)),
       objs.countP (fun o => !(outcome o == ApplyOutcome.applied)))
  | [] => rfl
  | o :: rest => by
    simp only [applyAll, applyAll_spec outcome rest]
    cases h : outcome o <;> simp [List.filter_cons, List.countP_cons, h]

/-! ## Claim theorems -/

/-- Claim C1: for every ShardDefinition list with unique names (all
endpoint listings succeeding and the existing-ConfigMap read not
erroring), the synthesized routing table contains exactly one
HashringConfigEntry per declared shard, and its entries are sorted by
shard name. -/
theorem C1_one_entry_per_shard_sorted
    (cm : CmRead) (subject nsName : String)
    (hs : List IngestorHashringSpec) (slices : String → Option (List EndpointSlice))
    (hcm : cm ≠ CmRead.getError)
    (hsome : ∀ h ∈ hs, (slices (IngesterNameFromParent subject h.name)).isSome)
    (hnd : (hs.map (fun h => h.name)).Nodup) :
    ∃ es, (buildHashringConfig cm subject nsName hs slices).entryList = some es ∧
      (∀ h ∈ hs, es.countP (fun e => e.hashring == h.name) = 1) ∧
      es.Pairwise entryLe := by
  refine ⟨_, buildHashringConfig_entryList cm subject nsName hs slices hcm hsome hnd, ?_, ?_⟩
  · intro h hm
    have hperm := List.perm_insertionSort entryLe
      ((settingsOf subject hs.length slices 0 hs).map
        (fun s => buildHashringEntry (existingOf cm) nsName s.1 s.2))
    rw [hperm.countP_eq, List.countP_map]
    have hcomp : ((fun e => e.hashring == h.name) ∘
        fun (s : String × HashringMeta) =>
          buildHashringEntry (existingOf cm) nsName s.1 s.2) =
        fun (s : String × HashringMeta) => s.2.originalName == h.name := by
      funext (s : String × HashringMeta)
      simp [buildHashringEntry]
    rw [hcomp, settingsOf_countP]
    have hmem : h.name ∈ hs.map (fun h => h.name) := List.mem_map_of_mem _ hm
    have hcount := List.count_eq_one_of_mem hnd hmem
    simpa [List.count] using hcount
  · exact List.sorted_insertionSort entryLe _

theorem C1_one_entry_per_shard_sorted_witness :
    ∃ es, (buildHashringConfig CmRead.notFound "test-resource" "treceive"
        [testHashringSpec] testSlices).entryList = some es ∧
      (∀ h ∈ [testHashringSpec], es.countP (fun e => e.hashring == h.name) = 1) ∧
      es.Pairwise entryLe :=
  C1_one_entry_per_shard_sorted CmRead.notFound "test-resource" "treceive"
    [testHashringSpec] testSlices (by decide) (by decide) (by decide)

/-- Claim C2: for every shard with at least one ready address, the
synthesized entry's endpoint list is exactly the lexicographically
sorted rendering of the addresses flagged ready and serving and not
terminating, each of the form
`<hostname>.<subject>-<shard-name>.<namespace>.svc.cluster.local:19291`;
in particular, for the ready hostnames some-hostname, some-hostname-b,
some-hostname-c under shard test-hashring of subject test-resource in
namespace treceive, the routing table is exactly the expected entry
with the three addresses in lexicographic order. -/
theorem C2_ready_endpoints_rendered_sorted (cm : CmRead) (subject nsName : String)
    (hs : List IngestorHashringSpec) (slices : String → Option (List EndpointSlice))
    (h : IngestorHashringSpec)
    (hcm : cm ≠ CmRead.getError)
    (hsome : ∀ h' ∈ hs, (slices (IngesterNameFromParent subject h'.name)).isSome)
    (hnd : (hs.map (fun h' => h'.name)).Nodup)
    (hm : h ∈ hs)
    (hfresh : readyAddresses (IngesterNameFromParent subject h.name) nsName
      ((slices (IngesterNameFromParent subject h.name)).getD []) ≠ []) :
    (∃ es, (buildHashringConfig cm subject nsName hs slices).entryList = some es ∧
      ∃ e ∈ es, e.hashring = h.name ∧
        e.endpoints = sortStrings (readyAddresses (IngesterNameFromParent subject h.name)
          nsName ((slices (IngesterNameFromParent subject h.name)).getD [])) ∧
        e.endpoints.Pairwise strLe ∧
        ∀ addr ∈ e.endpoints,
          ∃ sl ∈ (slices (IngesterNameFromParent subject h.name)).getD [],
            ∃ ep ∈ sl.endpoints, endpointReady ep = true ∧
              ∃ hn, ep.hostname = some hn ∧
                addr = renderAddress hn (IngesterNameFromParent subject h.name) nsName) ∧
    (buildHashringConfig CmRead.notFound "test-resource" "treceive" [testHashringSpec]
      testSlices).entryList = some [expectedTestEntry] := by
  constructor
  · refine ⟨_, buildHashringConfig_entryList cm subject nsName hs slices hcm hsome hnd, ?_⟩
    obtain ⟨j, hj⟩ := settingsOf_mem subject hs.length slices h hs 0 hm
    set key := IngesterNameFromParent subject h.name with hkey
    set ready := readyAddresses key nsName ((slices key).getD []) with hready
    have hmem1 : buildHashringEntry (existingOf cm) nsName key
        ((settingOf subject hs.length j slices h).2) ∈
        (settingsOf subject hs.length slices 0 hs).map
          (fun s => buildHashringEntry (existingOf cm) nsName s.1 s.2) := by
      have : (settingOf subject hs.length j slices h).1 = key := rfl
      exact this ▸ List.mem_map_of_mem _ hj
    refine ⟨_, (List.perm_insertionSort entryLe _).mem_iff.mpr hmem1, ?_, ?_, ?_, ?_⟩
    · simp [buildHashringEntry, settingOf]
    · have hne : (sortStrings ready).isEmpty = false := by
        rw [List.isEmpty_eq_false_iff_exists_mem]
        obtain ⟨a, ha⟩ := List.exists_mem_of_ne_nil ready hfresh
        exact ⟨a, (List.perm_insertionSort strLe ready).mem_iff.mpr ha⟩
      simp only [buildHashringEntry, settingOf, hne]
      rfl
    · have hne : (sortStrings ready).isEmpty = false := by
        rw [List.isEmpty_eq_false_iff_exists_mem]
        obtain ⟨a, ha⟩ := List.exists_mem_of_ne_nil ready hfresh
        exact ⟨a, (List.perm_insertionSort strLe ready).mem_iff.mpr ha⟩
      simp only [buildHashringEntry, settingOf, hne]
      exact List.sorted_insertionSort strLe ready
    · intro addr haddr
      have hne : (sortStrings ready).isEmpty = false := by
        rw [List.isEmpty_eq_false_iff_exists_mem]
        obtain ⟨a, ha⟩ := List.exists_mem_of_ne_nil ready hfresh
        exact ⟨a, (List.perm_insertionSort strLe ready).mem_iff.mpr ha⟩
      simp only [buildHashringEntry, settingOf, hne] at haddr
      have haddr2 : addr ∈ ready := (List.perm_insertionSort strLe ready).mem_iff.mp haddr
      rw [hready, readyAddresses] at haddr2
      obtain ⟨sl, hsl, hin⟩ := List.mem_flatMap.mp haddr2
      obtain ⟨ep, hep, heq⟩ := List.mem_filterMap.mp hin
      refine ⟨sl, hsl, ep, hep, ?_⟩
      by_cases hr : endpointReady ep
      · simp only [hr, if_true] at heq
        obtain ⟨hn, hhn, hrender⟩ := Option.map_eq_some'.mp heq
        exact ⟨hr, hn, hhn, hrender.symm⟩
      · simp [hr] at heq
  · decide

theorem C2_ready_endpoints_rendered_sorted_witness :
    (∃ es, (buildHashringConfig CmRead.notFound "test-resource" "treceive"
        [testHashringSpec] testSlices).entryList = some es ∧
      ∃ e ∈ es, e.hashring = testHashringSpec.name ∧
        e.endpoints = sortStrings (readyAddresses
          (IngesterNameFromParent "test-resource" testHashringSpec.name) "treceive"
          ((testSlices (IngesterNameFromParent "test-resource" testHashringSpec.name)).getD [])) ∧
        e.endpoints.Pairwise strLe ∧
        ∀ addr ∈ e.endpoints,
          ∃ sl ∈ (testSlices (IngesterNameFromParent "test-resource" testHashringSpec.name)).getD [],
            ∃ ep ∈ sl.endpoints, endpointReady ep = true ∧
              ∃ hn, ep.hostname = some hn ∧
                addr = renderAddress hn
                  (IngesterNameFromParent "test-resource" testHashringSpec.name) "treceive") ∧
    (buildHashringConfig CmRead.notFound "test-resource" "treceive" [testHashringSpec]
      testSlices).entryList = some [expectedTestEntry] :=
  C2_ready_endpoints_rendered_sorted CmRead.notFound "test-resource" "treceive"
    [testHashringSpec] testSlices testHashringSpec
    (by decide) (by decide) (by decide) (by decide) (by decide)

/-- Claim C3: for every shard that yields zero ready endpoint
addresses while the previously persisted artifact holds a non-empty
entry under the shard's name, the newly synthesized routing table
still contains an entry for that shard carrying the previous endpoint
list. -/
theorem C3_zero_ready_preserves_previous (cm : CmRead) (subject nsName : String)
    (hs : List IngestorHashringSpec) (slices : String → Option (List EndpointSlice))
    (h : IngestorHashringSpec) (prev : HashringConfigEntry)
    (hcm : cm ≠ CmRead.getError)
    (hsome : ∀ h' ∈ hs, (slices (IngesterNameFromParent subject h'.name)).isSome)
    (hnd : (hs.map (fun h' => h'.name)).Nodup)
    (hm : h ∈ hs)
    (hzero : readyAddresses (IngesterNameFromParent subject h.name) nsName
      ((slices (IngesterNameFromParent subject h.name)).getD []) = [])
    (hfind : (existingOf cm).find? (fun e => e.hashring == h.name) = some prev)
    (hne : prev.endpoints ≠ []) :
    ∃ es, (buildHashringConfig cm subject nsName hs slices).entryList = some es ∧
      ∃ e ∈ es, e.hashring = h.name ∧ e.endpoints = prev.endpoints ∧ e.endpoints ≠ [] := by
  refine ⟨_, buildHashringConfig_entryList cm subject nsName hs slices hcm hsome hnd, ?_⟩
  obtain ⟨j, hj⟩ := settingsOf_mem subject hs.length slices h hs 0 hm
  have hmem1 : buildHashringEntry (existingOf cm) nsName
      (IngesterNameFromParent subject h.name)
      ((settingOf subject hs.length j slices h).2) ∈
      (settingsOf subject hs.length slices 0 hs).map
        (fun s => buildHashringEntry (existingOf cm) nsName s.1 s.2) :=
    List.mem_map_of_mem _ hj
  refine ⟨_, (List.perm_insertionSort entryLe _).mem_iff.mpr hmem1, ?_, ?_, ?_⟩
  · simp [buildHashringEntry, settingOf]
  · simp only [buildHashringEntry, settingOf, hzero]
    simpa [sortStrings, List.insertionSort] using hfind ▸ rfl
  · simp only [buildHashringEntry, settingOf, hzero]
    simp only [sortStrings]
    rw [show (List.insertionSort strLe ([] : List String)) = [] from rfl]
    simp [hfind, hne]

theorem C3_zero_ready_preserves_previous_witness :
    ∃ es, (buildHashringConfig (CmRead.found [prevTestEntry]) "test-resource" "treceive"
        [testHashringSpec] emptySlices).entryList = some es ∧
      ∃ e ∈ es, e.hashring = testHashringSpec.name ∧
        e.endpoints = prevTestEntry.endpoints ∧ e.endpoints ≠ [] :=
  C3_zero_ready_preserves_previous (CmRead.found [prevTestEntry]) "test-resource"
    "treceive" [testHashringSpec] emptySlices testHashringSpec prevTestEntry
    (by decide) (by decide) (by decide) (by decide) (by decide) (by decide) (by decide)

/-- Claim C4: for an empty declared shard list, the synthesizer
signals the `ErrHashringsEmpty` sentinel while still returning the
artifact, the artifact content is the literal `[]`, and the reconcile
pass still attempts to publish exactly that artifact rather than
skipping it; when the publish succeeds the pass does not fail. -/
theorem C4_empty_shards_sentinel_still_published (cm : CmRead) (subject nsName : String)
    (slices : String → Option (List EndpointSlice)) (outcome : K8sObj → ApplyOutcome)
    (hcm : cm ≠ CmRead.getError)
    (href : outcome (configArtifact subject []) ≠ ApplyOutcome.setRefFailed) :
    buildHashringConfig cm subject nsName [] slices = BuildConfigResult.emptySentinel [] ∧
    (configArtifact subject []).payload = some EmptyHashringConfig ∧
    EmptyHashringConfig = "[]" ∧
    (syncResources cm subject nsName [] slices outcome).attempted =
      [configArtifact subject []] ∧
    (outcome (configArtifact subject []) = ApplyOutcome.applied →
      (syncResources cm subject nsName [] slices outcome).isErr = false) := by
  have hbuild : buildHashringConfig cm subject nsName [] slices =
      BuildConfigResult.emptySentinel [] := by
    cases cm with
    | getError => exact absurd rfl hcm
    | notFound => rfl
    | found es => rfl
  refine ⟨hbuild, rfl, rfl, ?_, ?_⟩
  · simp only [syncResources, hbuild, buildIngesterObjs, List.flatMap_nil, List.nil_append,
      runApplyLoop, applyAll_spec, List.filter_cons, List.filter_nil]
    cases h : outcome (configArtifact subject []) with
    | setRefFailed => exact absurd h href
    | applyFailed => simp
    | applied => simp
  · intro h
    simp [syncResources, hbuild, buildIngesterObjs, runApplyLoop, applyAll_spec,
      List.countP_cons, h]

theorem C4_empty_shards_sentinel_still_published_witness :
    buildHashringConfig CmRead.notFound "s" "n" [] emptySlices =
      BuildConfigResult.emptySentinel [] ∧
    (configArtifact "s" []).payload = some EmptyHashringConfig ∧
    EmptyHashringConfig = "[]" ∧
    (syncResources CmRead.notFound "s" "n" [] emptySlices
      (fun _ => ApplyOutcome.applied)).attempted = [configArtifact "s" []] ∧
    ((fun _ => ApplyOutcome.applied : K8sObj → ApplyOutcome) (configArtifact "s" []) =
        ApplyOutcome.applied →
      (syncResources CmRead.notFound "s" "n" [] emptySlices
        (fun _ => ApplyOutcome.applied)).isErr = false) :=
  C4_empty_shards_sentinel_still_published CmRead.notFound "s" "n" emptySlices
    (fun _ => ApplyOutcome.applied) (by decide) (by decide)

/-- Claim C5 (code bug): the grpc-port loop of
`getStoreAPIServiceEndpoints` does extract port 10901 from a service
with a `grpc`-named port, but the endpoint slot is then reassigned
with a struct literal that omits the port, so the returned Endpoint
carries port 0 even when a grpc port is present; a service without a
grpc port is likewise returned with port 0 rather than excluded. -/
theorem C5_grpc_port_extracted_then_dropped :
    (grpcPortUpdate myStoreStrict
      { serviceName := "", nsName := "", etype := .regular, port := 0 }).port = 10901 ∧
    getStoreAPIServiceEndpoints (some [myStorePlain]) =
      [{ serviceName := "my-store", nsName := "ns", etype := .regular, port := 0 }] ∧
    getStoreAPIServiceEndpoints (some [noGrpcService]) =
      [{ serviceName := "no-grpc", nsName := "ns", etype := .regular, port := 0 }] := by
  refine ⟨by decide, by decide, by decide⟩

/-- Claim C6: a service carrying the strict label is classified
strict, whatever other strictness labels it carries, and contributes
exactly one endpoint flag, the `--endpoint-strict=` variant; in
particular the service my-store in namespace ns yields exactly
`--endpoint-strict=dnssrv+_grpc._tcp.my-store.ns.svc.cluster.local`. -/
theorem C6_strict_label_wins_strict_flag (svc : K8sService)
    (h : hasLabel svc.labels StrictLabel = true) :
    classifyService svc = EndpointType.strict ∧
    querierEndpointArgs (getStoreAPIServiceEndpoints (some [svc])) =
      ["--endpoint-strict=" ++ "dnssrv+_grpc._tcp." ++ svc.name ++ "." ++ svc.nsName ++
        ".svc.cluster.local"] ∧
    querierEndpointArgs (getStoreAPIServiceEndpoints (some [myStoreStrict])) =
      ["--endpoint-strict=dnssrv+_grpc._tcp.my-store.ns.svc.cluster.local"] := by
  refine ⟨?_, ?_, by decide⟩
  · simp [classifyService, h]
  · simp [querierEndpointArgs, getStoreAPIServiceEndpoints, endpointArg,
      endpointFlagHead, classifyService, h]

theorem C6_strict_label_wins_strict_flag_witness :
    classifyService myStoreStrict = EndpointType.strict ∧
    querierEndpointArgs (getStoreAPIServiceEndpoints (some [myStoreStrict])) =
      ["--endpoint-strict=" ++ "dnssrv+_grpc._tcp." ++ myStoreStrict.name ++ "." ++
        myStoreStrict.nsName ++ ".svc.cluster.local"] ∧
    querierEndpointArgs (getStoreAPIServiceEndpoints (some [myStoreStrict])) =
      ["--endpoint-strict=dnssrv+_grpc._tcp.my-store.ns.svc.cluster.local"] :=
  C6_strict_label_wins_strict_flag myStoreStrict (by decide)

/-- Claim C7: the apply loop shared by both controllers processes
every object regardless of earlier failures (an object is attempted
for CreateOrUpdate exactly when its owner-reference step did not
fail), counts every failure, and reports the pass as failed iff at
least one object failed; the ThanosQuery `syncResources` inherits the
same property for its desired object set. -/
theorem C7_apply_failures_counted_not_aborting (outcome : K8sObj → ApplyOutcome)
    (objs : List K8sObj) :
    (runApplyLoop outcome objs).attempted =
      objs.filter (fun o => !(outcome o == ApplyOutcome.setRefFailed)) ∧
    (runApplyLoop outcome objs).errCount =
      objs.countP (fun o => !(outcome o == ApplyOutcome.applied)) ∧
    ((runApplyLoop outcome objs).isErr = true ↔
      ∃ o ∈ objs, outcome o ≠ ApplyOutcome.applied) ∧
    ∀ (q : ThanosQuery) (services : Option (List K8sService)),
      ((querySyncResources q services outcome).isErr = true ↔
        ∃ o ∈ buildQuerierObjs q services, outcome o ≠ ApplyOutcome.applied) := by
  have hloop : ∀ objs' : List K8sObj, (runApplyLoop outcome objs').isErr = true ↔
      ∃ o ∈ objs', outcome o ≠ ApplyOutcome.applied := by
    intro objs'
    simp only [runApplyLoop, applyAll_spec, decide_eq_true_eq]
    rw [List.countP_pos_iff]
    simp
  refine ⟨?_, ?_, hloop objs, ?_⟩
  · simp [runApplyLoop, applyAll_spec]
  · simp [runApplyLoop, applyAll_spec]
  · intro q services
    exact hloop (buildQuerierObjs q services)

/-- Claim C8 counterexample: on a not-found subject the ThanosReceive
reconcile pass returns success, but it is not side-effect free — the
total-reconciliations and client-errors counters are incremented — so
the pass result differs from the untouched effects state. -/
theorem C8_notfound_counterexample :
    ¬ ((receiveReconcile GetResult.notFound CmRead.notFound emptySlices
          (fun _ => ApplyOutcome.applied) zeroMetrics []).isErr = false ∧
       receiveReconcile GetResult.notFound CmRead.notFound emptySlices
          (fun _ => ApplyOutcome.applied) zeroMetrics [] =
        { metrics := zeroMetrics, events := [], attempted := [], isErr := false }) := by
  decide

/-- Claim C8 (amended): a reconcile pass on a not-found subject
returns success, attempts no object and records no event; the
ThanosReceive flow still increments the total-reconciliations and
client-errors counters, and the ThanosQuery flow (which has no
counters) has no effects at all. -/
theorem C8_notfound_success_only_counters (cm : CmRead)
    (slices : String → Option (List EndpointSlice))
    (outcome : K8sObj → ApplyOutcome) (m : Metrics) (events : List String)
    (services : Option (List K8sService)) :
    receiveReconcile GetResult.notFound cm slices outcome m events =
      { metrics := { reconciliationsTotal := m.reconciliationsTotal + 1
                     reconciliationsFailedTotal := m.reconciliationsFailedTotal
                     clientErrorsTotal := m.clientErrorsTotal + 1 }
        events := events, attempted := [], isErr := false } ∧
    queryReconcile GetResult.notFound services outcome =
      { attempted := [], isErr := false } := by
  constructor <;> rfl

/-- Claim C9: a present subject marked for deletion takes the
finalizer path — recording the human-readable deletion notice exactly
when the finalizer marker is present — and the pass ends successfully
without attempting any object apply. -/
theorem C9_deletion_advisory_finalizer (r : ThanosReceive) (cm : CmRead)
    (slices : String → Option (List EndpointSlice)) (outcome : K8sObj → ApplyOutcome)
    (m : Metrics) (events : List String)
    (hdel : r.deletionTimestamp.isSome = true) :
    receiveReconcile (GetResult.found r) cm slices outcome m events =
      { metrics := { m with reconciliationsTotal := m.reconciliationsTotal + 1 }
        events :=
          if r.finalizers.contains receiveFinalizer then events ++ [deletionNotice r]
          else events
        attempted := [], isErr := false } := by
  simp [receiveReconcile, hdel, handleDeletionTimestamp]

theorem C9_deletion_advisory_finalizer_witness :
    receiveReconcile (GetResult.found deletingReceive) CmRead.notFound emptySlices
      (fun _ => ApplyOutcome.applied) zeroMetrics [] =
      { metrics := { zeroMetrics with
          reconciliationsTotal := zeroMetrics.reconciliationsTotal + 1 }
        events :=
          if deletingReceive.finalizers.contains receiveFinalizer then
            [] ++ [deletionNotice deletingReceive]
          else []
        attempted := [], isErr := false } :=
  C9_deletion_advisory_finalizer deletingReceive CmRead.notFound emptySlices
    (fun _ => ApplyOutcome.applied) zeroMetrics [] (by decide)

/-- Claim C10: when building the hashring configuration fails with a
hard error (anything but the empty-shard-list sentinel), the
ThanosReceive `syncResources` pass returns failure before any object
of the desired set — the already-built ingester workloads included —
is attempted, leaving cluster state untouched. -/
theorem C10_build_error_aborts_before_apply (cm : CmRead) (subject nsName : String)
    (hs : List IngestorHashringSpec) (slices : String → Option (List EndpointSlice))
    (outcome : K8sObj → ApplyOutcome)
    (herr : buildHashringConfig cm subject nsName hs slices = BuildConfigResult.err) :
    (syncResources cm subject nsName hs slices outcome).attempted = [] ∧
    (syncResources cm subject nsName hs slices outcome).isErr = true := by
  simp [syncResources, herr]

theorem C10_build_error_aborts_before_apply_witness :
    (syncResources CmRead.getError "test-resource" "treceive" [testHashringSpec]
      emptySlices (fun _ => ApplyOutcome.applied)).attempted = [] ∧
    (syncResources CmRead.getError "test-resource" "treceive" [testHashringSpec]
      emptySlices (fun _ => ApplyOutcome.applied)).isErr = true :=
  C10_build_error_aborts_before_apply CmRead.getError "test-resource" "treceive"
    [testHashringSpec] emptySlices (fun _ => ApplyOutcome.applied) (by decide)

end ThanosOperator
